import Mathlib

/-!
Verification model of the auto-defi-agent core: the copy-trading manager
(`src/copy_trading/copy_trading_manager.py`), the APY predictor
(`src/ml/apy_predictor.py`) and the strategy agent
(`src/agents/strategy_agent.py`).

Modelling conventions, applied throughout:
* Python floats are modelled as rationals (`ℚ`); the numeric literals of the
  source are exact decimal fractions, so nothing is lost.
* `datetime` values are rational seconds since the Unix epoch; `timedelta`
  arguments are converted to seconds (`days=90` is `90 * 86400`).
  Call sites of `datetime.now()` take an explicit `now` argument.
* Python dictionaries are association lists `List (String × β)`; no modelled
  operation observes dictionary iteration order, so `setA` below may store
  the updated binding at the front.
* An operation that can raise a Python exception returns `Option`
  (`none` is the raised exception); all other operations are total.
* File persistence, logging and the optional order callback are I/O side
  effects with no influence on the modelled state and are omitted.
-/

/-- Python division `a / b`, which raises `ZeroDivisionError` when `b = 0`. -/
def pydiv (a b : ℚ) : Option ℚ :=
  if b = 0 then none else some (a / b)

/-- Python dictionary assignment `d[k] = v` on an association list. -/
def setA {β : Type} (k : String) (v : β) (l : List (String × β)) :
    List (String × β) :=
  (k, v) :: l.eraseP (fun p => p.1 == k)

/-- In-place mutation `f` of the value stored under key `k` (Python mutates
the object held by the dictionary). -/
def updateA {β : Type} (k : String) (f : β → β) :
    List (String × β) → List (String × β)
  | [] => []
  | (a, b) :: t => (if a = k then (a, f b) else (a, b)) :: updateA k f t

/-- Python `d.get(k, dflt)`. -/
def lookupD {β : Type} (l : List (String × β)) (k : String) (dflt : β) : β :=
  (l.lookup k).getD dflt

theorem lookup_eraseP_ne {β : Type} {k k' : String} (h : k' ≠ k) :
    ∀ l : List (String × β),
      (l.eraseP (fun p => p.1 == k)).lookup k' = l.lookup k'
  | [] => rfl
  | (a, b) :: t => by
    rcases eq_or_ne a k with rfl | hak
    · rw [List.eraseP_cons_of_pos (by simp)]
      have hb : (k' == a) = false := beq_eq_false_iff_ne.mpr h
      simp [List.lookup_cons, hb]
    · rw [List.eraseP_cons_of_neg (by simp [hak])]
      by_cases hk : k' = a
      · subst hk
        simp [List.lookup_cons]
      · have hb : (k' == a) = false := beq_eq_false_iff_ne.mpr hk
        simp [List.lookup_cons, hb, lookup_eraseP_ne h t]

@[simp] theorem lookup_setA_self {β : Type} (k : String) (v : β)
    (l : List (String × β)) : (setA k v l).lookup k = some v := by
  simp [setA, List.lookup_cons]

theorem lookup_setA_ne {β : Type} {k k' : String} (v : β)
    (l : List (String × β)) (h : k' ≠ k) :
    (setA k v l).lookup k' = l.lookup k' := by
  have hb : (k' == k) = false := beq_eq_false_iff_ne.mpr h
  simp [setA, List.lookup_cons, hb, lookup_eraseP_ne h l]

theorem lookup_updateA_self {β : Type} (k : String) (f : β → β) :
    ∀ l : List (String × β), (updateA k f l).lookup k = (l.lookup k).map f
  | [] => rfl
  | (a, b) :: t => by
    by_cases hak : a = k
    · subst hak
      simp [updateA, List.lookup_cons]
    · have hb : (k == a) = false := beq_eq_false_iff_ne.mpr (Ne.symm hak)
      simp [updateA, hak, List.lookup_cons, hb, lookup_updateA_self k f t]

theorem lookup_updateA_ne {β : Type} {k k' : String} (f : β → β) (h : k' ≠ k) :
    ∀ l : List (String × β), (updateA k f l).lookup k' = l.lookup k'
  | [] => rfl
  | (a, b) :: t => by
    by_cases hak : a = k
    · subst hak
      have hb : (k' == a) = false := beq_eq_false_iff_ne.mpr h
      simp [updateA, List.lookup_cons, hb, lookup_updateA_ne f h t]
    · by_cases hk : k' = a
      · subst hk
        simp [updateA, hak, List.lookup_cons]
      · have hb2 : (k' == a) = false := beq_eq_false_iff_ne.mpr hk
        simp [updateA, hak, List.lookup_cons, hb2, lookup_updateA_ne f h t]

/-! ## Copy-trading manager (`src/copy_trading/copy_trading_manager.py`) -/

namespace CopyTrading

/-- The `OrderType` enum. -/
inductive OrderType : Type
  | BUY
  | SELL
  | SWAP
deriving DecidableEq

/-- The `Trader` dataclass. -/
structure Trader : Type where
  address : String
  name : String
  total_trades : ℤ
  win_rate : ℚ
  avg_return : ℚ
  followers : ℤ
  is_verified : Bool
  strategies : List String
  created_at : ℚ
deriving DecidableEq

/-- The `CopyOrder` dataclass.  `status` is one of the strings `"PENDING"`,
`"EXECUTED"`, `"CANCELLED"` exactly as in the source. -/
structure CopyOrder : Type where
  order_id : String
  trader_address : String
  follower_address : String
  pool_address : String
  pool_name : String
  order_type : OrderType
  amount_usd : ℚ
  leverage : ℚ
  status : String
  executed_at : Option ℚ
  pnl : ℚ
  pnl_percent : ℚ
deriving DecidableEq

/-- The `StrategyConfig` dataclass (copy-trading module). -/
structure StrategyConfig : Type where
  pool_address : String
  pool_name : String
  min_apy : ℚ
  max_slippage : ℚ
  auto_copy : Bool
  max_investment : ℚ
  risk_level : String
deriving DecidableEq

/-- The `Follower` dataclass. -/
structure Follower : Type where
  address : String
  trader_address : String
  allocation_percent : ℚ
  min_investment : ℚ
  max_investment : ℚ
  last_copy : Option ℚ
  total_copied : ℚ
deriving DecidableEq

/-- The `stats` counter dictionary of `CopyTradingManager`. -/
structure Stats : Type where
  total_traders : ℤ
  total_followers : ℤ
  total_volume : ℚ
  total_pnl : ℚ
deriving DecidableEq

/-- The mutable state of a `CopyTradingManager`: its four data dictionaries
and the stats counters (`data_dir` and the callback are I/O plumbing). -/
structure Manager : Type where
  traders : List (String × Trader)
  followers : List (String × List Follower)
  orders : List (String × CopyOrder)
  strategies : List (String × StrategyConfig)
  stats : Stats
deriving DecidableEq

/-- State of a freshly constructed `CopyTradingManager`. -/
def initManager : Manager :=
  { traders := [], followers := [], orders := [], strategies := [],
    stats := { total_traders := 0, total_followers := 0,
               total_volume := 0, total_pnl := 0 } }

/-- Model of `CopyTradingManager.register_trader` (persistence side effect omitted). -/
def register_trader (now : ℚ) (s : Manager) (address name : String)
    (strategies : List String) : Manager :=
  let trader : Trader :=
    { address := address, name := name, total_trades := 0, win_rate := 0,
      avg_return := 0, followers := 0, is_verified := false,
      strategies := strategies, created_at := now }
  { s with traders := setA address trader s.traders,
           stats := { s.stats with total_traders := s.stats.total_traders + 1 } }

/-- Model of `CopyTradingManager.follow_trader`: appends a `Follower` to the trader's
list, bumps `total_followers`, and — when the trader is registered — writes
the new list length into the trader's `followers` field. -/
def follow_trader (s : Manager) (follower_address trader_address : String)
    (allocation_percent min_investment max_investment : ℚ) : Manager :=
  let f : Follower :=
    { address := follower_address, trader_address := trader_address,
      allocation_percent := allocation_percent,
      min_investment := min_investment, max_investment := max_investment,
      last_copy := none, total_copied := 0 }
  let fs := lookupD s.followers trader_address [] ++ [f]
  let s1 : Manager :=
    { s with followers := setA trader_address fs s.followers,
             stats := { s.stats with
                          total_followers := s.stats.total_followers + 1 } }
  match s.traders.lookup trader_address with
  | some t =>
      { s1 with
          traders :=
            setA trader_address { t with followers := (fs.length : ℤ) }
              s1.traders }
  | none => s1

/-- Model of `CopyTradingManager.unfollow_trader`: removes the first follower whose
address matches (Python pops it from the shared list), decrements
`total_followers`, returns `true`; otherwise returns `false` unchanged. -/
def unfollow_trader (s : Manager) (follower_address trader_address : String) :
    Bool × Manager :=
  let fs := lookupD s.followers trader_address []
  if fs.any (fun f => f.address == follower_address) then
    (true,
     { s with
        followers :=
          setA trader_address (fs.eraseP (fun f => f.address == follower_address))
            s.followers,
        stats := { s.stats with
                     total_followers := s.stats.total_followers - 1 } })
  else
    (false, s)

/-- Model of `CopyTradingManager.get_strategy`: strategies are keyed by the
string `follower_address ++ ":" ++ pool_address`. -/
def get_strategy (s : Manager) (follower_address pool_address : String) :
    Option StrategyConfig :=
  s.strategies.lookup (follower_address ++ ":" ++ pool_address)

/-- Model of `CopyTradingManager.add_strategy`. -/
def add_strategy (s : Manager) (follower_address : String)
    (strategy : StrategyConfig) : Manager :=
  { s with
      strategies :=
        setA (follower_address ++ ":" ++ strategy.pool_address) strategy
          s.strategies }

/-- The per-follower body of `CopyTradingManager.copy_order`: `none` when the
follower is skipped (strategy present with `auto_copy` off, or capped
investment below `min_investment`), otherwise the invested amount
`min(amount_usd * allocation_percent / 100, max_investment)`. -/
def followerOrderAmount (strategies : List (String × StrategyConfig))
    (pool_address : String) (amount_usd : ℚ) (f : Follower) : Option ℚ :=
  match strategies.lookup (f.address ++ ":" ++ pool_address) with
  | some strategy =>
      if strategy.auto_copy = false then none
      else investOf amount_usd f
  | none => investOf amount_usd f
where
  /-- Computes `invest_amount = min(amount_usd * (allocation_percent / 100),
  max_investment)`, skipped when below `min_investment`. -/
  investOf (amount_usd : ℚ) (f : Follower) : Option ℚ :=
    let invest_amount := min (amount_usd * (f.allocation_percent / 100))
      f.max_investment
    if invest_amount < f.min_investment then none else some invest_amount

/-- The order built inside the `copy_order` loop (status `"PENDING"`, default
`leverage` 1, no `executed_at`, zero pnl). -/
def mkCopyOrder (order_id trader_address pool_address pool_name : String)
    (order_type : OrderType) (f : Follower) (invest_amount : ℚ) : CopyOrder :=
  { order_id := order_id, trader_address := trader_address,
    follower_address := f.address, pool_address := pool_address,
    pool_name := pool_name, order_type := order_type,
    amount_usd := invest_amount, leverage := 1, status := "PENDING",
    executed_at := none, pnl := 0, pnl_percent := 0 }

/-- The fan-out loop of `copy_order` over the trader's follower list.
`_generate_order_id` draws a fresh random id for each created order; the id
source is abstracted as `genId` applied to the count of orders created so
far within this call. -/
def copyOrdersAux (genId : ℕ → String)
    (strategies : List (String × StrategyConfig))
    (trader_address pool_address pool_name : String) (order_type : OrderType)
    (amount_usd : ℚ) : ℕ → List Follower → List CopyOrder
  | _, [] => []
  | i, f :: rest =>
      match followerOrderAmount strategies pool_address amount_usd f with
      | none => copyOrdersAux genId strategies trader_address pool_address
          pool_name order_type amount_usd i rest
      | some invest_amount =>
          mkCopyOrder (genId i) trader_address pool_address pool_name
              order_type f invest_amount ::
            copyOrdersAux genId strategies trader_address pool_address
              pool_name order_type amount_usd (i + 1) rest

/-- Model of `CopyTradingManager.copy_order`: replicates one trader order to every
follower, returning the created orders and the updated state (orders stored
under their ids, `total_volume` bumped by each invested amount). -/
def copy_order (genId : ℕ → String) (s : Manager)
    (trader_address pool_address pool_name : String) (order_type : OrderType)
    (amount_usd : ℚ) : List CopyOrder × Manager :=
  let followers := lookupD s.followers trader_address []
  let orders := copyOrdersAux genId s.strategies trader_address pool_address
    pool_name order_type amount_usd 0 followers
  (orders,
   { s with
      orders := orders.foldl (fun d o => setA o.order_id o d) s.orders,
      stats := { s.stats with
                   total_volume := s.stats.total_volume +
                     (orders.map (fun o => o.amount_usd)).sum } })

/-- Model of `CopyTradingManager.execute_order`: `false` when the id is unknown;
otherwise unconditionally sets `status = "EXECUTED"` and `executed_at`,
whatever the previous status, and returns `true`. -/
def execute_order (now : ℚ) (s : Manager) (order_id : String) :
    Bool × Manager :=
  match s.orders.lookup order_id with
  | none => (false, s)
  | some _ =>
      (true,
       { s with
          orders := updateA order_id
            (fun o => { o with status := "EXECUTED", executed_at := some now })
            s.orders })

/-- Model of `CopyTradingManager.cancel_order`: `false` when the id is unknown;
otherwise unconditionally sets `status = "CANCELLED"`, whatever the previous
status, and returns `true`. -/
def cancel_order (s : Manager) (order_id : String) : Bool × Manager :=
  match s.orders.lookup order_id with
  | none => (false, s)
  | some _ =>
      (true,
       { s with
          orders := updateA order_id (fun o => { o with status := "CANCELLED" })
            s.orders })

/-- Model of `CopyTradingManager.calculate_pnl`: returns `0` for an unknown order id;
for a known order divides by `entry_price` with no guard, so
`entry_price = 0` raises `ZeroDivisionError` (modelled as `none`). -/
def calculate_pnl (s : Manager) (order_id : String)
    (exit_price entry_price : ℚ) : Option (ℚ × Manager) :=
  match s.orders.lookup order_id with
  | none => some (0, s)
  | some o =>
      (if o.order_type = OrderType.BUY then
         pydiv (exit_price - entry_price) entry_price
       else
         pydiv (entry_price - exit_price) entry_price).map
        (fun pnl_percent =>
          let pnl := o.amount_usd * pnl_percent
          (pnl,
            { s with
               orders := updateA order_id
                 (fun o2 =>
                   { o2 with pnl_percent := pnl_percent, pnl := pnl })
                 s.orders,
               stats := { s.stats with
                            total_pnl := s.stats.total_pnl + pnl } }))

end CopyTrading

/-! ## APY predictor (`src/ml/apy_predictor.py`) -/

namespace ML

/-- The `APYDataPoint` dataclass. -/
structure APYDataPoint : Type where
  timestamp : ℚ
  apy : ℚ
  tvl : ℚ
  volume : ℚ
  pool_address : String
deriving DecidableEq

/-- The `APYPrediction` dataclass. -/
structure APYPrediction : Type where
  pool_name : String
  pool_address : String
  current_apy : ℚ
  predicted_apy_24h : ℚ
  predicted_apy_7d : ℚ
  trend : String
  confidence : ℚ
  recommendation : String
  factors : List String
  risk_warning : String
deriving DecidableEq

/-- The `ModelConfig` dataclass. -/
structure ModelConfig : Type where
  window_size : ℕ
  min_data_points : ℕ
  max_history_days : ℕ
  confidence_threshold : ℚ
  weight_apy_trend : ℚ
  weight_tvl_change : ℚ
  weight_volume_trend : ℚ
  weight_momentum : ℚ
  weight_seasonality : ℚ
deriving DecidableEq

/-- The default `ModelConfig` (7, 3, 90, 0.5, weights 0.25/0.20/0.15/0.25/0.15). -/
def defaultModelConfig : ModelConfig :=
  { window_size := 7, min_data_points := 3, max_history_days := 90,
    confidence_threshold := 1/2, weight_apy_trend := 1/4,
    weight_tvl_change := 1/5, weight_volume_trend := 3/20,
    weight_momentum := 1/4, weight_seasonality := 3/20 }

/-- The feature dictionary produced by `_extract_features`. -/
structure Features : Type where
  apy_trend : ℚ
  tvl_change : ℚ
  volume_trend : ℚ
  momentum : ℚ
  seasonality : ℚ
deriving DecidableEq

/-- Mutable state of an `APYPredictor`: per-pool history and the prediction
cache (`model_dir` and `_last_scan` are unused plumbing). -/
structure PredictorState : Type where
  pool_data : List (String × List APYDataPoint)
  cache : List (String × APYPrediction)
deriving DecidableEq

/-- State of a freshly constructed `APYPredictor`. -/
def initPredictor : PredictorState := { pool_data := [], cache := [] }

/-- Model of `APYPredictor.add_data_point` (with `_cleanup_expired_data` inlined):
appends the point at the end of the pool's list, evicts entries with
`timestamp < now - max_history_days`, and drops the pool's cache entry. -/
def add_data_point (cfg : ModelConfig) (now : ℚ) (s : PredictorState)
    (pool_address : String) (apy tvl volume : ℚ) (timestamp : Option ℚ) :
    PredictorState :=
  let point : APYDataPoint :=
    { timestamp := timestamp.getD now, apy := apy, tvl := tvl,
      volume := volume, pool_address := pool_address }
  let pts := lookupD s.pool_data pool_address [] ++ [point]
  let cutoff := now - (cfg.max_history_days : ℚ) * 86400
  let pts2 := pts.filter (fun p => cutoff ≤ p.timestamp)
  { pool_data := setA pool_address pts2 s.pool_data,
    cache := s.cache.eraseP (fun c => c.1 == pool_address) }

/-- Python `datetime.now().weekday()` (Monday = 0): the Unix epoch fell on a
Thursday, weekday 3.  Time zones are not modelled. -/
def weekday (now : ℚ) : ℤ := (Rat.floor (now / 86400) + 3) % 7

/-- Python `statistics.mean` (only ever applied to non-empty lists in the source). -/
def pymean (l : List ℚ) : ℚ := l.sum / (l.length : ℚ)

/-- Model of `APYPredictor._calculate_slope`: least-squares slope over index/value
pairs; `0` for fewer than two points or a degenerate denominator
(`|denominator| < 1e-4`).  The final division is reached only under the
guard, where the denominator is nonzero, so plain division is exact. -/
def calculate_slope (values : List ℚ) : ℚ :=
  let n := values.length
  if n < 2 then 0
  else
    let x : List ℚ := (List.range n).map (fun i => (i : ℚ))
    let sum_x := x.sum
    let sum_y := values.sum
    let sum_xy := ((x.zip values).map (fun p => p.1 * p.2)).sum
    let sum_xx := (x.map (fun xi => xi * xi)).sum
    let denominator := (n : ℚ) * sum_xx - sum_x * sum_x
    if |denominator| < 1/10000 then 0
    else ((n : ℚ) * sum_xy - sum_x * sum_y) / denominator

/-- Model of `APYPredictor._default_features`. -/
def default_features : Features :=
  { apy_trend := 0, tvl_change := 0, volume_trend := 0, momentum := 0,
    seasonality := 0 }

/-- Placeholder data point behind `getD`; every use is guarded by a length
check that makes the list non-empty, so it is never read. -/
def dummyPoint : APYDataPoint :=
  { timestamp := 0, apy := 0, tvl := 0, volume := 0, pool_address := "" }

/-- Model of `APYPredictor._extract_features`.  Python slices `history[-window:]`,
`recent[-3:]` and `recent[:-3]` become `drop`/`take`.  The two divisions
with floor denominators (`max(x, 1)`, `max(x, 0.01)`) are written with
`pydiv`, so that freedom from `ZeroDivisionError` is a provable statement. -/
def extract_features (cfg : ModelConfig) (now : ℚ) (s : PredictorState)
    (pool_address : String) : Option Features :=
  match s.pool_data.lookup pool_address with
  | none => some default_features
  | some history =>
    if history.length < cfg.min_data_points then some default_features
    else
      let window := cfg.window_size
      let recent0 := (history.drop (history.length - window)).filter
        (fun p => now - (window : ℚ) * 86400 ≤ p.timestamp)
      let recent :=
        if recent0.length < cfg.min_data_points then history else recent0
      let first := (recent.head?).getD dummyPoint
      let last := (recent.getLast?).getD dummyPoint
      let apy_trend := calculate_slope (recent.map (fun p => p.apy))
      (if 2 ≤ recent.length then
         pydiv (last.tvl - first.tvl) (max first.tvl 1)
       else some 0).bind (fun tvl_change =>
        let volume_trend := calculate_slope (recent.map (fun p => p.volume))
        (if 7 ≤ recent.length then
           let short_term := pymean
             ((recent.drop (recent.length - 3)).map (fun p => p.apy))
           let long_term := pymean
             ((recent.take (recent.length - 3)).map (fun p => p.apy))
           pydiv (short_term - long_term) (max long_term (1/100))
         else if 4 ≤ recent.length then
           pydiv (last.apy - first.apy) (max first.apy (1/100))
         else some 0).bind (fun momentum =>
          let seasonality : ℚ :=
            if weekday now = 5 ∨ weekday now = 6 then 1/20 else 0
          some { apy_trend := apy_trend, tvl_change := tvl_change,
                 volume_trend := volume_trend, momentum := momentum,
                 seasonality := seasonality }))

/-- Model of `APYPredictor._calculate_prediction_score` (the emoji component of the
returned triple is unused by `predict` and omitted). -/
def calculate_prediction_score (cfg : ModelConfig) (f : Features) :
    ℚ × String :=
  let score := f.apy_trend * cfg.weight_apy_trend * 10 +
    f.tvl_change * cfg.weight_tvl_change * 10 +
    f.volume_trend * cfg.weight_volume_trend * 10 +
    f.momentum * cfg.weight_momentum * 10 +
    f.seasonality * cfg.weight_seasonality
  let trend :=
    if 1/20 < score then "UP"
    else if score < -(1/20) then "DOWN"
    else "STABLE"
  (score, trend)

/-- Model of `APYPredictor._generate_recommendation`; its division is guarded by
`max(current_apy, 0.01)`. -/
def generate_recommendation (cfg : ModelConfig)
    (current_apy predicted_24h : ℚ) (trend : String)
    (confidence risk_score : ℚ) : Option String :=
  if confidence < cfg.confidence_threshold then some "HOLD"
  else
    match pydiv (predicted_24h - current_apy) (max current_apy (1/100)) with
    | none => none
    | some apy_change_pct =>
        if 7/10 < risk_score then
          if trend = "UP" ∧ 1/10 < apy_change_pct then some "HOLD"
          else some "SELL"
        else if trend = "UP" ∧ 2/25 < apy_change_pct then some "BUY"
        else if trend = "DOWN" ∧ apy_change_pct < -(2/25) then some "SELL"
        else some "HOLD"

/-- Model of `APYPredictor._analyze_factors`. -/
def analyze_factors (f : Features) : List String :=
  let l1 :=
    if 1/10 < f.apy_trend then ["📈 APY 强劲上升"]
    else if 1/20 < f.apy_trend then ["📈 APY 温和上升"]
    else if f.apy_trend < -(1/10) then ["📉 APY 显著下降"]
    else if f.apy_trend < -(1/20) then ["📉 APY 温和下降"]
    else ["➡️ APY 走势平稳"]
  let l2 :=
    if 1/5 < f.tvl_change then ["💰 资金大幅流入 (+TVL)"]
    else if 1/10 < f.tvl_change then ["💵 资金流入 (+TVL)"]
    else if f.tvl_change < -(1/5) then ["💸 资金大幅流出 (-TVL)"]
    else if f.tvl_change < -(1/10) then ["📉 资金流出 (-TVL)"]
    else []
  let l3 :=
    if 1/10 < f.momentum then ["🚀 动量强劲，看涨"]
    else if 1/20 < f.momentum then ["📊 动量为正"]
    else if f.momentum < -(1/10) then ["⚠️ 动量减弱，看跌"]
    else if f.momentum < -(1/20) then ["📉 动量为负"]
    else []
  let l4 := if 0 < f.seasonality then ["📅 周末效应 (可能更高)"] else []
  l1 ++ l2 ++ l3 ++ l4

/-- The tail of `APYPredictor.predict` once features are extracted: builds
the new `APYPrediction` from the pool's stored history and the features. -/
def build_prediction (cfg : ModelConfig) (history : List APYDataPoint)
    (pool_address pool_name : String) (features : Features) :
    Option APYPrediction :=
  let current_apy := ((history.getLast?).map (fun p => p.apy)).getD 5
  let st := calculate_prediction_score cfg features
  let score := st.1
  let trend := st.2
  let daily_change := if features.apy_trend ≠ 0 then score / 7 else score
  let predicted_24h :=
    max (current_apy * (1 + daily_change + features.seasonality)) 0
  let momentum_effect := features.momentum * 7
  let predicted_7d :=
    max (current_apy *
      (1 + daily_change * 7 + momentum_effect + features.seasonality)) 0
  let data_points := history.length
  let confidence0 := min ((data_points : ℚ) / 30) 1 * (7/10) + 3/10
  let confidence := min confidence0 (19/20)
  let risk_factors :=
    (if 1/5 < |features.apy_trend| then (1/5 : ℚ) else 0) +
    (if 3/10 < |features.tvl_change| then (1/5 : ℚ) else 0) +
    (if confidence < 1/2 then (3/10 : ℚ) else 0)
  let risk_score := min risk_factors 1
  let risk_warning :=
    if 7/10 < risk_score then "⚠️ 高波动性，请谨慎"
    else if 1/2 < risk_score then "⚡ 中等风险"
    else ""
  (generate_recommendation cfg current_apy predicted_24h trend confidence
      risk_score).map (fun recommendation =>
    { pool_name := pool_name, pool_address := pool_address,
      current_apy := current_apy, predicted_apy_24h := predicted_24h,
      predicted_apy_7d := predicted_7d, trend := trend,
      confidence := confidence, recommendation := recommendation,
      factors := analyze_factors features, risk_warning := risk_warning })

/-- The body of `APYPredictor.predict` after the cache check, from feature
extraction to the construction of the new `APYPrediction`. -/
def predict_compute (cfg : ModelConfig) (now : ℚ) (s : PredictorState)
    (pool_address pool_name : String) : Option APYPrediction :=
  (extract_features cfg now s pool_address).bind (fun features =>
    build_prediction cfg (lookupD s.pool_data pool_address [])
      pool_address pool_name features)

/-- Models Python's `datetime.fromisoformat`, which raises `ValueError`
unless the string is an ISO-8601 date/datetime — in particular the string
must begin with a four-digit year.  Only this necessary condition is
modelled; on acceptance the value is abstracted as the year, never relied
on by a theorem. -/
def fromisoformat (s2 : String) : Option ℚ :=
  let cs := s2.toList
  if 4 ≤ cs.length ∧ (cs.take 4).all Char.isDigit then
    some (((cs.take 4).foldl (fun acc c => acc * 10 + (c.toNat - 48)) 0 : ℕ) : ℚ)
  else none

/-- Model of `APYPredictor.predict` including the 5-minute cache check.  On a cache
hit the source runs `datetime.fromisoformat(cached.pool_address)` — its
comment claims the field stores the cache time, but every cached
prediction's `pool_address` holds the pool address — so `none` models the
`ValueError` escaping from `predict`. -/
def predict (cfg : ModelConfig) (now : ℚ) (s : PredictorState)
    (pool_address pool_name : String) :
    Option (APYPrediction × PredictorState) :=
  match s.cache.lookup pool_address with
  | some cached =>
      match fromisoformat cached.pool_address with
      | none => none
      | some t =>
          if now - t < 300 then some (cached, s)
          else predict_fresh cfg now s pool_address pool_name
  | none => predict_fresh cfg now s pool_address pool_name
where
  /-- The cache-miss continuation: compute a fresh prediction and store it
  in the cache under the pool address. -/
  predict_fresh (cfg : ModelConfig) (now : ℚ) (s : PredictorState)
      (pool_address pool_name : String) :
      Option (APYPrediction × PredictorState) :=
    (predict_compute cfg now s pool_address pool_name).map
      (fun p => (p, { s with cache := setA pool_address p s.cache }))

end ML

/-! ## Strategy agent (`src/agents/strategy_agent.py`) -/

namespace Agent

/-- A pool record as consumed by `scan_opportunities` (the fields the scan
reads from each element of `pools`). -/
structure Pool : Type where
  name : String
  protocol : String
  chain : String
  apy : ℚ
  tvl : ℚ
  token0 : String
  token1 : String
  pool_address : String
deriving DecidableEq

/-- The `Opportunity` dataclass. -/
structure Opportunity : Type where
  pool_name : String
  protocol : String
  chain : String
  apy : ℚ
  tvl : ℚ
  token_pair : String
  contract_address : String
  confidence : ℚ
  timestamp : ℚ
deriving DecidableEq

/-- The `Opportunity` built by `scan_opportunities` for a retained pool,
with `confidence = min(1.0, tvl/1000000 * 0.5 + apy/100 * 0.5)`. -/
def mkOpportunity (now : ℚ) (p : Pool) : Opportunity :=
  { pool_name := p.name, protocol := p.protocol, chain := p.chain,
    apy := p.apy, tvl := p.tvl,
    token_pair := p.token0 ++ "/" ++ p.token1,
    contract_address := p.pool_address,
    confidence := min 1 (p.tvl / 1000000 * (1/2) + p.apy / 100 * (1/2)),
    timestamp := now }

/-- The loop body of `scan_opportunities`: skip when `apy < min_apy`
(`continue`), skip when `tvl < 10000` ($10k hard floor), otherwise build
the `Opportunity`. -/
def scanFilter (min_apy now : ℚ) (p : Pool) : Option Opportunity :=
  if p.apy < min_apy then none
  else if p.tvl < 10000 then none
  else some (mkOpportunity now p)

/-- Model of `AutoDeFiAgent.scan_opportunities`: keep pools with `apy ≥ min_apy` and
`tvl ≥ 10000`, build opportunities, stable-sort descending by apy (Python's
stable `sort(key=apy, reverse=True)` is `mergeSort` with `b.apy ≤ a.apy`). -/
def scan_opportunities (min_apy now : ℚ) (pools : List Pool) :
    List Opportunity :=
  (pools.filterMap (scanFilter min_apy now)).mergeSort
    (fun a b => decide (b.apy ≤ a.apy))

/-- The fixed allowlist of `analyze_risk`. -/
def known_protocols : List String := ["pancakeswap", "venus", "alpaca"]

/-- Python's substring test `needle in hay` on strings. -/
def strContains (hay needle : String) : Bool :=
  go needle.toList hay.toList
where
  go (n : List Char) : List Char → Bool
    | [] => n.isEmpty
    | c :: t => n.isPrefixOf (c :: t) || go n t

/-- The dictionary returned by `AutoDeFiAgent.analyze_risk`. -/
structure RiskAnalysis : Type where
  opportunity : String
  score : ℚ
  risk_level : String
  factors : List (String × String × String)
  recommendation : String
deriving DecidableEq

/-- The raw factor sum accumulated by `analyze_risk` before normalization:
TVL contribution, APY contribution, protocol contribution. -/
def rawRiskScore (opp : Opportunity) : ℚ :=
  let tvl_score : ℚ :=
    if 1000000 ≤ opp.tvl then 3/10 else if 100000 ≤ opp.tvl then 1/5 else 0
  let apy_score : ℚ :=
    if 100 ≤ opp.apy then -(1/5) else if 50 ≤ opp.apy then -(1/10) else 1/10
  let protocol_known := known_protocols.any
    (fun p => strContains opp.protocol.toLower p.toLower)
  let protocol_score : ℚ := if protocol_known then 1/5 else -(1/10)
  tvl_score + apy_score + protocol_score

/-- The normalized risk score: `score = max(0.0, min(1.0, score))`. -/
def riskScoreOf (opp : Opportunity) : ℚ := max 0 (min 1 (rawRiskScore opp))

/-- Model of `AutoDeFiAgent.analyze_risk`: TVL, APY and protocol contributions summed,
clipped to `[0,1]`; risk level at the 0.7 / 0.4 boundaries; recommendation
EXECUTE at `score ≥ 0.5`. -/
def analyze_risk (opp : Opportunity) : RiskAnalysis :=
  let tvl_factor :=
    if 1000000 ≤ opp.tvl then ("TVL", "Low", "+0.3")
    else if 100000 ≤ opp.tvl then ("TVL", "Medium", "+0.2")
    else ("TVL", "High", "+0.0")
  let apy_factor :=
    if 100 ≤ opp.apy then ("APY", "High Risk", "-0.2")
    else if 50 ≤ opp.apy then ("APY", "Medium", "-0.1")
    else ("APY", "Low", "+0.1")
  let protocol_known := known_protocols.any
    (fun p => strContains opp.protocol.toLower p.toLower)
  let protocol_factor :=
    if protocol_known then ("Protocol", "Known", "+0.2")
    else ("Protocol", "Unknown", "-0.1")
  { opportunity := opp.pool_name, score := riskScoreOf opp,
    risk_level :=
      if 7/10 ≤ riskScoreOf opp then "LOW"
      else if 2/5 ≤ riskScoreOf opp then "MEDIUM"
      else "HIGH",
    factors := [tvl_factor, apy_factor, protocol_factor],
    recommendation := if 1/2 ≤ riskScoreOf opp then "EXECUTE" else "WAIT" }

end Agent

/-! ## Theorems for the claims -/

/-- C6: for every opportunity, the risk analysis score is the sum of the
TVL, APY and protocol contributions clipped into `[0,1]`; the risk level is
LOW exactly when `score ≥ 0.7`, MEDIUM exactly when `0.4 ≤ score < 0.7` and
HIGH otherwise; the recommendation is EXECUTE exactly when `score ≥ 0.5`
and WAIT otherwise. -/
theorem c6_analyze_risk_score_levels (opp : Agent.Opportunity) :
    0 ≤ (Agent.analyze_risk opp).score ∧
    (Agent.analyze_risk opp).score ≤ 1 ∧
    (Agent.analyze_risk opp).score = max 0 (min 1 (Agent.rawRiskScore opp)) ∧
    ((Agent.analyze_risk opp).risk_level = "LOW" ↔
       7/10 ≤ (Agent.analyze_risk opp).score) ∧
    ((Agent.analyze_risk opp).risk_level = "MEDIUM" ↔
       (2/5 ≤ (Agent.analyze_risk opp).score ∧
         (Agent.analyze_risk opp).score < 7/10)) ∧
    ((Agent.analyze_risk opp).risk_level = "HIGH" ↔
       (Agent.analyze_risk opp).score < 2/5) ∧
    ((Agent.analyze_risk opp).recommendation = "EXECUTE" ↔
       1/2 ≤ (Agent.analyze_risk opp).score) ∧
    ((Agent.analyze_risk opp).recommendation = "WAIT" ↔
       (Agent.analyze_risk opp).score < 1/2) := by
  have hscore : (Agent.analyze_risk opp).score = Agent.riskScoreOf opp := rfl
  have hlevel : (Agent.analyze_risk opp).risk_level =
      (if 7/10 ≤ Agent.riskScoreOf opp then "LOW"
       else if 2/5 ≤ Agent.riskScoreOf opp then "MEDIUM" else "HIGH") := rfl
  have hrec : (Agent.analyze_risk opp).recommendation =
      (if 1/2 ≤ Agent.riskScoreOf opp then "EXECUTE" else "WAIT") := rfl
  have h0 : 0 ≤ Agent.riskScoreOf opp := le_max_left 0 _
  have h1 : Agent.riskScoreOf opp ≤ 1 :=
    max_le (by norm_num) (min_le_left 1 _)
  rw [hscore, hlevel, hrec]
  refine ⟨h0, h1, rfl, ?_, ?_, ?_, ?_, ?_⟩ <;>
  · by_cases h7 : (7 : ℚ)/10 ≤ Agent.riskScoreOf opp <;>
    by_cases h4 : (2 : ℚ)/5 ≤ Agent.riskScoreOf opp <;>
    by_cases h5 : (1 : ℚ)/2 ≤ Agent.riskScoreOf opp <;>
    simp [h7, h4, h5] <;> linarith

/-- C9: a successful `unfollow_trader` returns `true`, decrements
`total_followers` by exactly one, and removes one follower from the
trader's list, other traders' lists untouched; an unsuccessful call returns
`false` with the whole state unchanged. -/
theorem c9_unfollow_trader_counter (s : CopyTrading.Manager)
    (fa ta : String) :
    ((lookupD s.followers ta []).any (fun f => f.address == fa) = true →
       (CopyTrading.unfollow_trader s fa ta).1 = true ∧
       ((CopyTrading.unfollow_trader s fa ta).2).stats.total_followers =
         s.stats.total_followers - 1 ∧
       (lookupD ((CopyTrading.unfollow_trader s fa ta).2).followers ta
           []).length + 1 = (lookupD s.followers ta []).length ∧
       (∀ ta2, ta2 ≠ ta →
          ((CopyTrading.unfollow_trader s fa ta).2).followers.lookup ta2 =
            s.followers.lookup ta2)) ∧
    ((lookupD s.followers ta []).any (fun f => f.address == fa) = false →
       CopyTrading.unfollow_trader s fa ta = (false, s)) := by
  constructor
  · intro hany
    have hpos : 0 < (lookupD s.followers ta []).length := by
      rcases List.any_eq_true.mp hany with ⟨x, hx, _⟩
      exact List.length_pos.mpr (List.ne_nil_of_mem hx)
    have hlen : ((lookupD s.followers ta []).eraseP
        (fun f => f.address == fa)).length =
        (lookupD s.followers ta []).length - 1 := by
      rw [List.length_eraseP, if_pos hany]
    refine ⟨?_, ?_, ?_, ?_⟩
    · simp [CopyTrading.unfollow_trader, hany]
    · simp [CopyTrading.unfollow_trader, hany]
    · simp only [CopyTrading.unfollow_trader, hany, if_pos]
      simp only [lookupD, lookup_setA_self, Option.getD_some]
      simp only [lookupD] at hlen hpos
      omega
    · intro ta2 hta2
      simp only [CopyTrading.unfollow_trader, hany, if_pos]
      exact lookup_setA_ne _ _ hta2
  · intro hany
    simp [CopyTrading.unfollow_trader, hany]

/-- C9 witness data: one trader with a single follower. -/
def managerOneFollower : CopyTrading.Manager :=
  CopyTrading.follow_trader
    (CopyTrading.register_trader 0 CopyTrading.initManager "0xT" "Alice" [])
    "0xF" "0xT" 50 10 1000

theorem c9_unfollow_trader_counter_witness :
    (CopyTrading.unfollow_trader managerOneFollower "0xF" "0xT").1 = true ∧
    ((CopyTrading.unfollow_trader managerOneFollower "0xF"
        "0xT").2).stats.total_followers = 0 ∧
    CopyTrading.unfollow_trader managerOneFollower "0xZ" "0xT" =
      (false, managerOneFollower) := by
  refine ⟨((c9_unfollow_trader_counter managerOneFollower "0xF" "0xT").1
      (by decide)).1, ?_, (c9_unfollow_trader_counter managerOneFollower
      "0xZ" "0xT").2 (by decide)⟩
  have h := ((c9_unfollow_trader_counter managerOneFollower "0xF" "0xT").1
    (by decide)).2.1
  rw [h]
  decide

/-- A concrete already-CANCELLED order, used to refute C2 as stated. -/
def cancelledOrder : CopyTrading.CopyOrder :=
  { order_id := "order_1", trader_address := "0xT",
    follower_address := "0xF", pool_address := "0xP",
    pool_name := "CAKE-USDT", order_type := CopyTrading.OrderType.BUY,
    amount_usd := 50, leverage := 1, status := "CANCELLED",
    executed_at := none, pnl := 0, pnl_percent := 0 }

/-- A manager whose only order is already CANCELLED. -/
def managerWithCancelled : CopyTrading.Manager :=
  { CopyTrading.initManager with orders := [("order_1", cancelledOrder)] }

/-- C2 counterexample: `execute_order` on an order whose status is already
terminal (`"CANCELLED"`) is not a no-op returning `false` — it returns
`true` and overwrites the status with `"EXECUTED"`. -/
theorem c2_execute_order_terminal_counterexample :
    (CopyTrading.execute_order 1000 managerWithCancelled "order_1").1 =
      true ∧
    ((CopyTrading.execute_order 1000 managerWithCancelled
        "order_1").2.orders.lookup "order_1").map (fun o => o.status) =
      some "EXECUTED" := by
  exact ⟨rfl, rfl⟩

/-- C2 amended: `execute_order` and `cancel_order` are no-ops returning
`false` only when the order id is unknown; for a known id they return
`true` and unconditionally set the status to EXECUTED / CANCELLED, whatever
the previous status (including terminal ones), leaving other orders
unchanged. -/
theorem c2_execute_cancel_amended (now : ℚ) (s : CopyTrading.Manager)
    (id : String) :
    (s.orders.lookup id = none →
       CopyTrading.execute_order now s id = (false, s) ∧
       CopyTrading.cancel_order s id = (false, s)) ∧
    (∀ o, s.orders.lookup id = some o →
       (CopyTrading.execute_order now s id).1 = true ∧
       (CopyTrading.execute_order now s id).2.orders.lookup id =
         some { o with status := "EXECUTED", executed_at := some now } ∧
       (CopyTrading.cancel_order s id).1 = true ∧
       (CopyTrading.cancel_order s id).2.orders.lookup id =
         some { o with status := "CANCELLED" } ∧
       (∀ id2, id2 ≠ id →
          (CopyTrading.execute_order now s id).2.orders.lookup id2 =
            s.orders.lookup id2 ∧
          (CopyTrading.cancel_order s id).2.orders.lookup id2 =
            s.orders.lookup id2)) := by
  constructor
  · intro h
    constructor <;> simp [CopyTrading.execute_order,
      CopyTrading.cancel_order, h]
  · intro o h
    refine ⟨?_, ?_, ?_, ?_, ?_⟩
    · simp [CopyTrading.execute_order, h]
    · simp [CopyTrading.execute_order, h, lookup_updateA_self]
    · simp [CopyTrading.cancel_order, h]
    · simp [CopyTrading.cancel_order, h, lookup_updateA_self]
    · intro id2 hid2
      constructor
      · simp [CopyTrading.execute_order, h, lookup_updateA_ne _ hid2]
      · simp [CopyTrading.cancel_order, h, lookup_updateA_ne _ hid2]

theorem c2_execute_cancel_amended_witness :
    CopyTrading.execute_order 1000 managerWithCancelled "nope" =
      (false, managerWithCancelled) ∧
    (CopyTrading.cancel_order managerWithCancelled "order_1").1 = true := by
  exact ⟨((c2_execute_cancel_amended 1000 managerWithCancelled "nope").1
      rfl).1,
    ((c2_execute_cancel_amended 1000 managerWithCancelled "order_1").2
      cancelledOrder rfl).2.2.1⟩

/-- State reaching the C10 counterexample: a follower attaches to trader
"0xT" before the trader registers; registration then creates the `Trader`
record with `followers = 0` while the trader's follower list already holds
one entry. -/
def managerFollowThenRegister : CopyTrading.Manager :=
  CopyTrading.register_trader 0
    (CopyTrading.follow_trader CopyTrading.initManager "0xF" "0xT" 100 10
      1000)
    "0xT" "Alice" []

/-- C10 counterexample: a successful `unfollow_trader` for the registered
trader "0xT" after which the `followers` field (0) does not exceed the
actual follower-list length (also 0). -/
theorem c10_followers_field_counterexample :
    (CopyTrading.unfollow_trader managerFollowThenRegister "0xF" "0xT").1 =
      true ∧
    ((CopyTrading.unfollow_trader managerFollowThenRegister "0xF"
        "0xT").2.traders.lookup "0xT").map (fun t => t.followers) =
      some 0 ∧
    (lookupD (CopyTrading.unfollow_trader managerFollowThenRegister "0xF"
        "0xT").2.followers "0xT" []).length = 0 := by
  exact ⟨rfl, rfl, rfl⟩

/-- C10 amended: `unfollow_trader` never touches the trader registry, while
`follow_trader` writes the new list length into a registered trader's
`followers` field; hence whenever the registered trader's `followers` field
matches its follower-list length (the state `follow_trader` leaves behind),
a successful unfollow leaves the field exceeding the list length by one
until a later `follow_trader` recomputes it. -/
theorem c10_followers_field_amended (s : CopyTrading.Manager)
    (fa ta : String) (alloc minI maxI : ℚ) :
    ((CopyTrading.unfollow_trader s fa ta).2.traders = s.traders) ∧
    (∀ t, s.traders.lookup ta = some t →
       (CopyTrading.follow_trader s fa ta alloc minI maxI).traders.lookup
           ta =
         some { t with followers :=
           ((lookupD (CopyTrading.follow_trader s fa ta alloc minI
               maxI).followers ta []).length : ℤ) }) ∧
    (∀ t, s.traders.lookup ta = some t →
       t.followers = ((lookupD s.followers ta []).length : ℤ) →
       (lookupD s.followers ta []).any (fun f => f.address == fa) = true →
       ((CopyTrading.unfollow_trader s fa ta).2.traders.lookup ta).map
           (fun t2 => t2.followers) =
         some (((lookupD (CopyTrading.unfollow_trader s fa
             ta).2.followers ta []).length : ℤ) + 1)) := by
  have huntr : (CopyTrading.unfollow_trader s fa ta).2.traders =
      s.traders := by
    simp only [CopyTrading.unfollow_trader]
    split <;> rfl
  refine ⟨huntr, ?_, ?_⟩
  · intro t ht
    simp only [CopyTrading.follow_trader, ht, lookup_setA_self,
      Option.some.injEq]
    simp only [lookupD, lookup_setA_self, Option.getD_some]
  · intro t ht hsync hany
    rw [huntr, ht]
    have hpos : 0 < (lookupD s.followers ta []).length := by
      rcases List.any_eq_true.mp hany with ⟨x, hx, _⟩
      exact List.length_pos.mpr (List.ne_nil_of_mem hx)
    have hlen : ((lookupD s.followers ta []).eraseP
        (fun f => f.address == fa)).length =
        (lookupD s.followers ta []).length - 1 := by
      rw [List.length_eraseP, if_pos hany]
    simp only [CopyTrading.unfollow_trader, hany, if_pos,
      Option.map_some', Option.some.injEq]
    simp only [lookupD, lookup_setA_self, Option.getD_some] at hlen hpos ⊢
    rw [hsync]
    simp only [lookupD]
    omega

/-- The `Trader` record stored for "0xT" in `managerOneFollower`. -/
def aliceTrader1 : CopyTrading.Trader :=
  { address := "0xT", name := "Alice", total_trades := 0, win_rate := 0,
    avg_return := 0, followers := 1, is_verified := false,
    strategies := [], created_at := 0 }

theorem c10_followers_field_amended_witness :
    ((CopyTrading.unfollow_trader managerOneFollower "0xF"
        "0xT").2.traders.lookup "0xT").map (fun t2 => t2.followers) =
      some (((lookupD (CopyTrading.unfollow_trader managerOneFollower "0xF"
          "0xT").2.followers "0xT" []).length : ℤ) + 1) := by
  exact (c10_followers_field_amended managerOneFollower "0xF" "0xT" 0 0
    0).2.2 aliceTrader1 rfl rfl rfl

/-- Any order produced by the `copy_order` fan-out loop comes from some
follower of the list, via `followerOrderAmount` and `mkCopyOrder`. -/
theorem copyOrdersAux_mem (genId : ℕ → String)
    (stgs : List (String × CopyTrading.StrategyConfig))
    (ta pa pn : String) (ty : CopyTrading.OrderType) (amt : ℚ) :
    ∀ (i : ℕ) (fs : List CopyTrading.Follower)
      (o : CopyTrading.CopyOrder),
      o ∈ CopyTrading.copyOrdersAux genId stgs ta pa pn ty amt i fs →
      ∃ f ∈ fs, ∃ inv, CopyTrading.followerOrderAmount stgs pa amt f =
        some inv ∧
        ∃ j, o = CopyTrading.mkCopyOrder (genId j) ta pa pn ty f inv
  | _, [], o, ho => absurd ho (List.not_mem_nil o)
  | i, f :: rest, o, ho => by
    revert ho
    simp only [CopyTrading.copyOrdersAux]
    rcases hf : CopyTrading.followerOrderAmount stgs pa amt f with _ | inv
    · intro ho
      rcases copyOrdersAux_mem genId stgs ta pa pn ty amt i rest o ho with
        ⟨g, hg, inv, hinv, j, rfl⟩
      exact ⟨g, List.mem_cons_of_mem f hg, inv, hinv, j, rfl⟩
    · intro ho
      rcases List.mem_cons.mp ho with rfl | htail
      · exact ⟨f, List.mem_cons_self f rest, inv, hf, i, rfl⟩
      · rcases copyOrdersAux_mem genId stgs ta pa pn ty amt (i + 1) rest o
          htail with ⟨g, hg, inv2, hinv2, j, rfl⟩
        exact ⟨g, List.mem_cons_of_mem f hg, inv2, hinv2, j, rfl⟩

/-- C1: `copy_order` skips a follower whenever a strategy for
(follower, pool) forbids auto-copy or the capped investment falls below the
follower's `min_investment`; every order it does create carries
`amount_usd = min(amount_usd * allocation_percent / 100, max_investment)`,
which never exceeds `max_investment` and never falls below
`min_investment`, and starts out PENDING. -/
theorem c1_copy_order_bounds (genId : ℕ → String)
    (s : CopyTrading.Manager)
    (trader_address pool_address pool_name : String)
    (ty : CopyTrading.OrderType) (amount_usd : ℚ) :
    (∀ f : CopyTrading.Follower,
       (∀ st, CopyTrading.get_strategy s f.address pool_address = some st →
          st.auto_copy = false →
          CopyTrading.followerOrderAmount s.strategies pool_address
            amount_usd f = none) ∧
       (min (amount_usd * (f.allocation_percent / 100)) f.max_investment <
           f.min_investment →
          CopyTrading.followerOrderAmount s.strategies pool_address
            amount_usd f = none) ∧
       (∀ amt2, CopyTrading.followerOrderAmount s.strategies pool_address
            amount_usd f = some amt2 →
          amt2 = min (amount_usd * (f.allocation_percent / 100))
            f.max_investment ∧
          f.min_investment ≤ amt2 ∧ amt2 ≤ f.max_investment)) ∧
    (∀ o ∈ (CopyTrading.copy_order genId s trader_address pool_address
        pool_name ty amount_usd).1,
       ∃ f ∈ lookupD s.followers trader_address [],
         o.follower_address = f.address ∧
         o.amount_usd = min (amount_usd * (f.allocation_percent / 100))
           f.max_investment ∧
         f.min_investment ≤ o.amount_usd ∧
         o.amount_usd ≤ f.max_investment ∧ o.status = "PENDING") := by
  have hchar : ∀ f : CopyTrading.Follower, ∀ amt2,
      CopyTrading.followerOrderAmount s.strategies pool_address amount_usd
        f = some amt2 →
      amt2 = min (amount_usd * (f.allocation_percent / 100))
        f.max_investment ∧
      f.min_investment ≤ amt2 ∧ amt2 ≤ f.max_investment := by
    intro f amt2 h
    have hinv : ∀ amt3,
        CopyTrading.followerOrderAmount.investOf amount_usd f =
          some amt3 →
        amt3 = min (amount_usd * (f.allocation_percent / 100))
          f.max_investment ∧
        f.min_investment ≤ amt3 ∧ amt3 ≤ f.max_investment := by
      intro amt3 h3
      unfold CopyTrading.followerOrderAmount.investOf at h3
      by_cases hlt : min (amount_usd * (f.allocation_percent / 100))
          f.max_investment < f.min_investment
      · simp [hlt] at h3
      · simp only [hlt, if_neg, if_false, Option.some.injEq] at h3
        subst h3
        exact ⟨rfl, le_of_not_lt hlt, min_le_right _ _⟩
    revert h
    unfold CopyTrading.followerOrderAmount
    rcases hst : s.strategies.lookup (f.address ++ ":" ++ pool_address)
      with _ | st
    · intro h
      exact hinv amt2 h
    · by_cases hac : st.auto_copy = false
      · simp [hac]
      · simp only [hac, if_neg, if_false]
        intro h
        exact hinv amt2 h
  constructor
  · intro f
    refine ⟨?_, ?_, hchar f⟩
    · intro st hst hac
      unfold CopyTrading.get_strategy at hst
      unfold CopyTrading.followerOrderAmount
      rw [hst]
      simp [hac]
    · intro hlt
      unfold CopyTrading.followerOrderAmount
        CopyTrading.followerOrderAmount.investOf
      rcases s.strategies.lookup (f.address ++ ":" ++ pool_address)
        with _ | st
      · simp [hlt]
      · by_cases hac : st.auto_copy = false
        · simp [hac]
        · simp [hac, hlt]
  · intro o ho
    rcases copyOrdersAux_mem genId s.strategies trader_address pool_address
      pool_name ty amount_usd 0 (lookupD s.followers trader_address []) o
      ho with ⟨f, hf, inv, hinv, j, rfl⟩
    rcases hchar f inv hinv with ⟨heq, hlow, hhigh⟩
    exact ⟨f, hf, rfl, heq, hlow, hhigh, rfl⟩

/-- The follower record stored in `managerOneFollower`. -/
def followerF1 : CopyTrading.Follower :=
  { address := "0xF", trader_address := "0xT", allocation_percent := 50,
    min_investment := 10, max_investment := 1000, last_copy := none,
    total_copied := 0 }

/-- The single order `copy_order` creates in the C1 witness scenario. -/
def orderC1 : CopyTrading.CopyOrder :=
  { order_id := "oid", trader_address := "0xT", follower_address := "0xF",
    pool_address := "0xP", pool_name := "CAKE-USDT",
    order_type := CopyTrading.OrderType.BUY, amount_usd := 50,
    leverage := 1, status := "PENDING", executed_at := none, pnl := 0,
    pnl_percent := 0 }

theorem followerOrderAmount_witness_eq :
    CopyTrading.followerOrderAmount managerOneFollower.strategies "0xP" 100
      followerF1 = some 50 := by
  show CopyTrading.followerOrderAmount [] "0xP" 100 followerF1 = some 50
  unfold CopyTrading.followerOrderAmount
    CopyTrading.followerOrderAmount.investOf
  norm_num [followerF1, List.lookup, min_def]

theorem copy_order_witness_eq :
    (CopyTrading.copy_order (fun _ => "oid") managerOneFollower "0xT" "0xP"
      "CAKE-USDT" CopyTrading.OrderType.BUY 100).1 = [orderC1] := by
  show CopyTrading.copyOrdersAux (fun _ => "oid")
    managerOneFollower.strategies "0xT" "0xP" "CAKE-USDT"
    CopyTrading.OrderType.BUY 100 0
    (lookupD managerOneFollower.followers "0xT" []) = [orderC1]
  have hfs : lookupD managerOneFollower.followers "0xT" [] =
      [followerF1] := rfl
  rw [hfs]
  simp only [CopyTrading.copyOrdersAux, followerOrderAmount_witness_eq]
  simp [CopyTrading.mkCopyOrder, orderC1, followerF1]

theorem c1_copy_order_bounds_witness :
    ((50 : ℚ) = min (100 * (followerF1.allocation_percent / 100))
       followerF1.max_investment ∧
      followerF1.min_investment ≤ (50 : ℚ) ∧
      (50 : ℚ) ≤ followerF1.max_investment) ∧
    (∃ f ∈ lookupD managerOneFollower.followers "0xT" [],
       orderC1.follower_address = f.address ∧
       orderC1.amount_usd = min (100 * (f.allocation_percent / 100))
         f.max_investment ∧
       f.min_investment ≤ orderC1.amount_usd ∧
       orderC1.amount_usd ≤ f.max_investment ∧
       orderC1.status = "PENDING") := by
  constructor
  · exact ((c1_copy_order_bounds (fun _ => "oid") managerOneFollower
      "0xT" "0xP" "CAKE-USDT" CopyTrading.OrderType.BUY 100).1
      followerF1).2.2 50 followerOrderAmount_witness_eq
  · exact (c1_copy_order_bounds (fun _ => "oid") managerOneFollower "0xT"
      "0xP" "CAKE-USDT" CopyTrading.OrderType.BUY 100).2 orderC1
      (by rw [copy_order_witness_eq]; exact List.mem_singleton.mpr rfl)

/-- Two appends for pool "0xP" with out-of-order timestamps (0 first, then
-100, both within the 90-day window at `now = 0`). -/
def predictorOutOfOrder : ML.PredictorState :=
  ML.add_data_point ML.defaultModelConfig 0
    (ML.add_data_point ML.defaultModelConfig 0 ML.initPredictor "0xP" 10
      1000000 500000 (some 0))
    "0xP" 11 1000000 500000 (some (-100))

/-- C8 counterexample: after appending a snapshot that carries an older
timestamp than an existing entry, the stored history is in insertion order
`[0, -100]` and is not ordered by timestamp. -/
theorem c8_history_not_time_ordered_counterexample :
    (lookupD predictorOutOfOrder.pool_data "0xP" []).map
      (fun p => p.timestamp) = [0, -100] ∧
    ¬ List.Pairwise (fun a b : ML.APYDataPoint => a.timestamp ≤ b.timestamp)
        (lookupD predictorOutOfOrder.pool_data "0xP" []) := by
  have hl : lookupD predictorOutOfOrder.pool_data "0xP" [] =
      [{ timestamp := 0, apy := 10, tvl := 1000000, volume := 500000,
         pool_address := "0xP" },
       { timestamp := -100, apy := 11, tvl := 1000000, volume := 500000,
         pool_address := "0xP" }] := by
    show lookupD
      (ML.add_data_point ML.defaultModelConfig 0
        (ML.add_data_point ML.defaultModelConfig 0 ML.initPredictor "0xP" 10
          1000000 500000 (some 0))
        "0xP" 11 1000000 500000 (some (-100))).pool_data "0xP" [] = _
    simp only [ML.add_data_point, ML.initPredictor, ML.defaultModelConfig]
    simp [lookupD, List.lookup, List.filter, setA, List.eraseP]
    norm_num
  rw [hl]
  constructor
  · rfl
  · intro h
    have h2 := List.pairwise_cons.mp h
    have h3 := h2.1 _ (List.mem_singleton.mpr rfl)
    norm_num at h3

/-- C8 amended: `add_data_point` appends the new snapshot at the end of the
pool's history regardless of its timestamp (insertion order, which need not
be timestamp order), then evicts every entry older than `max_history_days`;
afterwards every stored entry is within `max_history_days` of `now`, and
other pools' histories are untouched. -/
theorem c8_add_data_point_amended (cfg : ML.ModelConfig) (now : ℚ)
    (s : ML.PredictorState) (pool_address : String) (apy tvl volume : ℚ)
    (ts : Option ℚ) :
    (lookupD (ML.add_data_point cfg now s pool_address apy tvl volume
        ts).pool_data pool_address [] =
      (lookupD s.pool_data pool_address [] ++
        [({ timestamp := ts.getD now, apy := apy, tvl := tvl,
            volume := volume, pool_address := pool_address } :
          ML.APYDataPoint)]).filter
        (fun p => now - (cfg.max_history_days : ℚ) * 86400 ≤ p.timestamp)) ∧
    (∀ p ∈ lookupD (ML.add_data_point cfg now s pool_address apy tvl volume
        ts).pool_data pool_address [],
       now - p.timestamp ≤ (cfg.max_history_days : ℚ) * 86400) ∧
    (∀ addr2, addr2 ≠ pool_address →
       (ML.add_data_point cfg now s pool_address apy tvl volume
           ts).pool_data.lookup addr2 = s.pool_data.lookup addr2) := by
  have hself : lookupD (ML.add_data_point cfg now s pool_address apy tvl
      volume ts).pool_data pool_address [] =
      (lookupD s.pool_data pool_address [] ++
        [({ timestamp := ts.getD now, apy := apy, tvl := tvl,
            volume := volume, pool_address := pool_address } :
          ML.APYDataPoint)]).filter
        (fun p => now - (cfg.max_history_days : ℚ) * 86400 ≤ p.timestamp) := by
    simp [ML.add_data_point, lookupD, lookup_setA_self]
  refine ⟨hself, ?_, ?_⟩
  · intro p hp
    rw [hself] at hp
    have := (List.mem_filter.mp hp).2
    have hle : now - (cfg.max_history_days : ℚ) * 86400 ≤ p.timestamp := by
      simpa using this
    linarith
  · intro addr2 h2
    simp only [ML.add_data_point]
    exact lookup_setA_ne _ _ h2

theorem c8_add_data_point_amended_witness :
    lookupD predictorOutOfOrder.pool_data "0xP" [] =
      (lookupD (ML.add_data_point ML.defaultModelConfig 0 ML.initPredictor
          "0xP" 10 1000000 500000 (some 0)).pool_data "0xP" [] ++
        [({ timestamp := (-100 : ℚ), apy := 11, tvl := 1000000,
            volume := 500000, pool_address := "0xP" } :
          ML.APYDataPoint)]).filter
        (fun p =>
          (0 : ℚ) - (ML.defaultModelConfig.max_history_days : ℚ) * 86400 ≤
            p.timestamp) ∧
    ∀ addr2, addr2 ≠ "0xP" →
      predictorOutOfOrder.pool_data.lookup addr2 =
        (ML.add_data_point ML.defaultModelConfig 0 ML.initPredictor "0xP" 10
          1000000 500000 (some 0)).pool_data.lookup addr2 := by
  have h := c8_add_data_point_amended ML.defaultModelConfig 0
    (ML.add_data_point ML.defaultModelConfig 0 ML.initPredictor "0xP" 10
      1000000 500000 (some 0))
    "0xP" 11 1000000 500000 (some (-100))
  exact ⟨h.1, fun addr2 h2 => h.2.2 addr2 h2⟩

/-- A pool with negative APY retained by a scan configured with a negative
`min_apy`; it drives the C5 confidence counterexample. -/
def poolNegApy : Agent.Pool :=
  { name := "NegPool", protocol := "venus", chain := "bsc", apy := -100,
    tvl := 10000, token0 := "A", token1 := "B", pool_address := "0xP" }

/-- C5 counterexample: with `min_apy = -200`, the pool with `apy = -100`
and `tvl = 10000` is retained and its confidence
`min(1, 10000/1000000*0.5 + (-100)/100*0.5) = -0.495` lies outside
`[0,1]`. -/
theorem c5_confidence_counterexample :
    ∃ o ∈ Agent.scan_opportunities (-200) 0 [poolNegApy],
      o.confidence < 0 := by
  have hscan : Agent.scan_opportunities (-200) 0 [poolNegApy] =
      [Agent.mkOpportunity 0 poolNegApy] := by
    unfold Agent.scan_opportunities
    have hf : List.filterMap (Agent.scanFilter (-200) 0) [poolNegApy] =
        [Agent.mkOpportunity 0 poolNegApy] := by
      simp only [List.filterMap_cons, List.filterMap_nil]
      norm_num [Agent.scanFilter, poolNegApy]
    rw [hf, List.mergeSort_singleton]
  refine ⟨Agent.mkOpportunity 0 poolNegApy, ?_, ?_⟩
  · rw [hscan]
    exact List.mem_singleton.mpr rfl
  · show min 1 ((10000 : ℚ) / 1000000 * (1/2) + (-100) / 100 * (1/2)) < 0
    norm_num [min_def]

/-- C5 amended: `scan_opportunities` returns exactly the pools with
`apy ≥ min_apy` and `tvl ≥ 10000` (the TVL floor is fixed), each carrying
`confidence = min(1, tvl/1000000*0.5 + apy/100*0.5)`, which is always ≤ 1
and lies within `[0,1]` whenever `min_apy ≥ 0`; the result is sorted
descending by apy. -/
theorem c5_scan_filter_confidence_sorted (min_apy now : ℚ)
    (pools : List Agent.Pool) :
    (∀ o ∈ Agent.scan_opportunities min_apy now pools,
       ∃ p ∈ pools, min_apy ≤ p.apy ∧ 10000 ≤ p.tvl ∧
         o = Agent.mkOpportunity now p) ∧
    (∀ p ∈ pools, min_apy ≤ p.apy → 10000 ≤ p.tvl →
       Agent.mkOpportunity now p ∈
         Agent.scan_opportunities min_apy now pools) ∧
    (∀ o ∈ Agent.scan_opportunities min_apy now pools,
       o.confidence ≤ 1) ∧
    (0 ≤ min_apy → ∀ o ∈ Agent.scan_opportunities min_apy now pools,
       0 ≤ o.confidence ∧ o.confidence ≤ 1) ∧
    List.Pairwise (fun a b : Agent.Opportunity => b.apy ≤ a.apy)
      (Agent.scan_opportunities min_apy now pools) := by
  have hmem : ∀ o : Agent.Opportunity,
      o ∈ Agent.scan_opportunities min_apy now pools ↔
        o ∈ pools.filterMap (Agent.scanFilter min_apy now) := by
    intro o
    unfold Agent.scan_opportunities
    exact List.mem_mergeSort
  have hchar : ∀ o ∈ Agent.scan_opportunities min_apy now pools,
      ∃ p ∈ pools, min_apy ≤ p.apy ∧ 10000 ≤ p.tvl ∧
        o = Agent.mkOpportunity now p := by
    intro o ho
    rcases List.mem_filterMap.mp ((hmem o).mp ho) with ⟨p, hp, hsome⟩
    by_cases h1 : p.apy < min_apy
    · simp [Agent.scanFilter, h1] at hsome
    · by_cases h2 : p.tvl < 10000
      · simp [Agent.scanFilter, h1, h2] at hsome
      · refine ⟨p, hp, le_of_not_lt h1, le_of_not_lt h2, ?_⟩
        simp only [Agent.scanFilter, h1, h2, if_false,
          Option.some.injEq] at hsome
        exact hsome.symm
  refine ⟨hchar, ?_, ?_, ?_, ?_⟩
  · intro p hp hapy htvl
    refine (hmem _).mpr (List.mem_filterMap.mpr ⟨p, hp, ?_⟩)
    simp [Agent.scanFilter, not_lt.mpr hapy, not_lt.mpr htvl]
  · intro o ho
    rcases hchar o ho with ⟨p, _, _, _, rfl⟩
    exact min_le_left _ _
  · intro hmin o ho
    rcases hchar o ho with ⟨p, _, hapy, htvl, rfl⟩
    refine ⟨le_min (by norm_num) ?_, min_le_left _ _⟩
    have h1 : (0 : ℚ) ≤ p.tvl := by linarith
    have h2 : (0 : ℚ) ≤ p.apy := le_trans hmin hapy
    have h3 : (0 : ℚ) ≤ p.tvl / 1000000 * (1/2) := by positivity
    have h4 : (0 : ℚ) ≤ p.apy / 100 * (1/2) := by positivity
    linarith
  · have htrans : ∀ a b c : Agent.Opportunity,
        (fun a b : Agent.Opportunity => decide (b.apy ≤ a.apy)) a b →
        (fun a b : Agent.Opportunity => decide (b.apy ≤ a.apy)) b c →
        (fun a b : Agent.Opportunity => decide (b.apy ≤ a.apy)) a c := by
      intro a b c hab hbc
      simp only [decide_eq_true_eq] at hab hbc ⊢
      exact le_trans hbc hab
    have htotal : ∀ a b : Agent.Opportunity,
        ((fun a b : Agent.Opportunity => decide (b.apy ≤ a.apy)) a b ||
          (fun a b : Agent.Opportunity => decide (b.apy ≤ a.apy)) b a) := by
      intro a b
      simp only [Bool.or_eq_true, decide_eq_true_eq]
      exact le_total b.apy a.apy
    have hs := List.sorted_mergeSort htrans htotal
      (pools.filterMap (Agent.scanFilter min_apy now))
    unfold Agent.scan_opportunities
    exact hs.imp (fun h => by simpa using h)

theorem c5_scan_filter_confidence_sorted_witness :
    (Agent.mkOpportunity 0 poolNegApy ∈
       Agent.scan_opportunities (-200) 0 [poolNegApy]) ∧
    (Agent.mkOpportunity 0 poolNegApy).confidence ≤ 1 := by
  have h := c5_scan_filter_confidence_sorted (-200) 0 [poolNegApy]
  have hm : Agent.mkOpportunity 0 poolNegApy ∈
      Agent.scan_opportunities (-200) 0 [poolNegApy] :=
    h.2.1 poolNegApy (List.mem_singleton.mpr rfl) (by norm_num [poolNegApy])
      (by norm_num [poolNegApy])
  exact ⟨hm, h.2.2.1 _ hm⟩

/-- Division `pydiv` succeeds exactly on nonzero denominators. -/
theorem pydiv_of_ne_zero {b : ℚ} (a : ℚ) (h : b ≠ 0) :
    pydiv a b = some (a / b) := if_neg h

theorem pydiv_of_pos {b : ℚ} (a : ℚ) (h : 0 < b) :
    pydiv a b = some (a / b) := if_neg (ne_of_gt h)

/-- A guarded division under an `if` is always some. -/
theorem ite_pydiv_isSome (c : Prop) [Decidable c] (a b x : ℚ)
    (hb : 0 < b) : (if c then pydiv a b else some x).isSome = true := by
  split
  · rw [pydiv_of_pos _ hb]
    rfl
  · rfl

/-- Two nested guarded divisions under ifs are always some. -/
theorem ite_ite_pydiv_isSome (c d : Prop) [Decidable c] [Decidable d]
    (a b a2 b2 x : ℚ) (hb : 0 < b) (hb2 : 0 < b2) :
    (if c then pydiv a b else if d then pydiv a2 b2 else some x).isSome =
      true := by
  split
  · rw [pydiv_of_pos _ hb]
    rfl
  · exact ite_pydiv_isSome d a2 b2 x hb2

theorem bind_isSome_of {α β : Type} {x : Option α} {k : α → Option β}
    (hx : x.isSome = true) (hk : ∀ t, (k t).isSome = true) :
    (x.bind k).isSome = true := by
  rcases x with _ | t
  · exact absurd hx (by simp)
  · exact hk t

/-- Feature extraction never raises: its two divisions have the floor
denominators `max(first.tvl, 1)` and `max(·, 0.01)`. -/
theorem extract_features_isSome (cfg : ML.ModelConfig) (now : ℚ)
    (s : ML.PredictorState) (addr : String) :
    (ML.extract_features cfg now s addr).isSome = true := by
  unfold ML.extract_features
  rcases s.pool_data.lookup addr with _ | history
  · rfl
  · by_cases hmin : history.length < cfg.min_data_points
    · simp [hmin]
    · simp only [hmin, if_false]
      refine bind_isSome_of
        (ite_pydiv_isSome _ _ _ _ (lt_of_lt_of_le one_pos
          (le_max_right _ _)))
        (fun t => ?_)
      refine bind_isSome_of
        (ite_ite_pydiv_isSome _ _ _ _ _ _ _
          (lt_of_lt_of_le (by norm_num) (le_max_right _ (1/100)))
          (lt_of_lt_of_le (by norm_num) (le_max_right _ (1/100))))
        (fun m => rfl)

/-- Recommendation generation never raises: its division is guarded by
`max(current_apy, 0.01)`. -/
theorem generate_recommendation_isSome (cfg : ML.ModelConfig)
    (cur pred : ℚ) (trend : String) (conf risk : ℚ) :
    (ML.generate_recommendation cfg cur pred trend conf risk).isSome =
      true := by
  unfold ML.generate_recommendation
  split
  · rfl
  · rw [pydiv_of_pos _ (lt_of_lt_of_le (by norm_num)
      (le_max_right cur (1/100)))]
    dsimp only
    split
    · split <;> rfl
    · split
      · rfl
      · split <;> rfl

/-- Bounds of any prediction built by `build_prediction`: forecasts are
floored at 0 and the confidence lies in `[0.3, 0.95]`. -/
theorem build_prediction_bounds {cfg : ML.ModelConfig}
    {hist : List ML.APYDataPoint} {addr nm : String} {f : ML.Features}
    {p : ML.APYPrediction}
    (h : ML.build_prediction cfg hist addr nm f = some p) :
    0 ≤ p.predicted_apy_24h ∧ 0 ≤ p.predicted_apy_7d ∧
    3/10 ≤ p.confidence ∧ p.confidence ≤ 19/20 := by
  unfold ML.build_prediction at h
  rcases Option.map_eq_some'.mp h with ⟨rec, hrec, hmk⟩
  obtain rfl := hmk.symm
  refine ⟨le_max_right _ _, le_max_right _ _, ?_, min_le_right _ _⟩
  have h0 : (0 : ℚ) ≤ min ((hist.length : ℚ) / 30) 1 :=
    le_min (by positivity) (by norm_num)
  have h3 : (3 : ℚ)/10 ≤ min ((hist.length : ℚ) / 30) 1 * (7/10) + 3/10 := by
    nlinarith
  exact le_min h3 (by norm_num)

/-- Bounds of any prediction produced by the compute path of `predict`. -/
theorem predict_compute_bounds {cfg : ML.ModelConfig} {now : ℚ}
    {s : ML.PredictorState} {addr nm : String} {p : ML.APYPrediction}
    (h : ML.predict_compute cfg now s addr nm = some p) :
    0 ≤ p.predicted_apy_24h ∧ 0 ≤ p.predicted_apy_7d ∧
    3/10 ≤ p.confidence ∧ p.confidence ≤ 19/20 := by
  unfold ML.predict_compute at h
  rcases Option.bind_eq_some.mp h with ⟨f2, hf2, hb⟩
  exact build_prediction_bounds hb

theorem pydiv_zero (a : ℚ) : pydiv a 0 = none := if_pos rfl

/-- C4 counterexample: `calculate_pnl` divides by `entry_price` with no
floor denominator; called with `entry_price = 0` on an existing order it
raises `ZeroDivisionError` (modelled as `none`). -/
theorem c4_entry_price_zero_counterexample :
    CopyTrading.calculate_pnl managerWithCancelled "order_1" 1 0 = none := by
  rfl

/-- C4 amended: every division in the predictor's feature extraction and
recommendation generation uses a floor denominator (`max(x,1)`,
`max(x,0.01)`), so neither can raise, and predicted APYs are floored at 0;
`calculate_pnl`, however, divides by `entry_price` unguarded — it succeeds
for every nonzero `entry_price` but raises `ZeroDivisionError` at
`entry_price = 0` whenever the order id exists. -/
theorem c4_division_guards :
    (∀ (cfg : ML.ModelConfig) (now : ℚ) (s : ML.PredictorState)
       (addr : String),
       (ML.extract_features cfg now s addr).isSome = true) ∧
    (∀ (cfg : ML.ModelConfig) (cur pred : ℚ) (trend : String)
       (conf risk : ℚ),
       (ML.generate_recommendation cfg cur pred trend conf risk).isSome =
         true) ∧
    (∀ (cfg : ML.ModelConfig) (hist : List ML.APYDataPoint)
       (addr nm : String) (f : ML.Features) (p : ML.APYPrediction),
       ML.build_prediction cfg hist addr nm f = some p →
       0 ≤ p.predicted_apy_24h ∧ 0 ≤ p.predicted_apy_7d) ∧
    (∀ (s : CopyTrading.Manager) (id : String) (ex en : ℚ), en ≠ 0 →
       (CopyTrading.calculate_pnl s id ex en).isSome = true) ∧
    (∀ (s : CopyTrading.Manager) (id : String) (ex : ℚ)
       (o : CopyTrading.CopyOrder), s.orders.lookup id = some o →
       CopyTrading.calculate_pnl s id ex 0 = none) := by
  refine ⟨extract_features_isSome, generate_recommendation_isSome,
    fun cfg hist addr nm f p h => ⟨(build_prediction_bounds h).1,
      (build_prediction_bounds h).2.1⟩, ?_, ?_⟩
  · intro s id ex en hne
    unfold CopyTrading.calculate_pnl
    rcases s.orders.lookup id with _ | o
    · rfl
    · dsimp only
      split <;> rw [pydiv_of_ne_zero _ hne] <;> rfl
  · intro s id ex o ho
    unfold CopyTrading.calculate_pnl
    rw [ho]
    dsimp only
    split <;> rw [pydiv_zero] <;> rfl

theorem c4_division_guards_witness :
    (CopyTrading.calculate_pnl managerWithCancelled "order_1" 1
      2).isSome = true ∧
    CopyTrading.calculate_pnl managerWithCancelled "order_1" 1 0 = none := by
  exact ⟨c4_division_guards.2.2.2.1 managerWithCancelled "order_1" 1 2
      (by norm_num),
    c4_division_guards.2.2.2.2 managerWithCancelled "order_1" 1
      cancelledOrder rfl⟩

/-- The cache invariant of C7: every cached prediction satisfies the C7
bounds. -/
def cacheBounded (s : ML.PredictorState) : Prop :=
  ∀ a q, s.cache.lookup a = some q →
    0 ≤ q.predicted_apy_24h ∧ 0 ≤ q.predicted_apy_7d ∧
    0 ≤ q.confidence ∧ q.confidence ≤ 19/20

/-- The cache-miss path of `predict` yields a prediction within the C7
bounds and preserves the cache invariant. -/
theorem predict_fresh_bounds {cfg : ML.ModelConfig} {now : ℚ}
    {s : ML.PredictorState} {addr nm : String} {p : ML.APYPrediction}
    {s2 : ML.PredictorState} (hc : cacheBounded s)
    (h : ML.predict.predict_fresh cfg now s addr nm = some (p, s2)) :
    (0 ≤ p.predicted_apy_24h ∧ 0 ≤ p.predicted_apy_7d ∧
     0 ≤ p.confidence ∧ p.confidence ≤ 19/20) ∧ cacheBounded s2 := by
  unfold ML.predict.predict_fresh at h
  rcases Option.map_eq_some'.mp h with ⟨q, hq, hpair⟩
  have hb := predict_compute_bounds hq
  obtain ⟨rfl, rfl⟩ := Prod.mk.inj hpair
  refine ⟨⟨hb.1, hb.2.1, le_trans (by norm_num) hb.2.2.1, hb.2.2.2⟩, ?_⟩
  intro a q2 hlk
  by_cases ha : a = addr
  · subst ha
    rw [show ({ s with cache := setA a q s.cache } :
        ML.PredictorState).cache = setA a q s.cache from rfl,
      lookup_setA_self] at hlk
    obtain rfl := (Option.some.inj hlk).symm
    exact ⟨hb.1, hb.2.1, le_trans (by norm_num) hb.2.2.1, hb.2.2.2⟩
  · rw [show ({ s with cache := setA addr q s.cache } :
        ML.PredictorState).cache = setA addr q s.cache from rfl,
      lookup_setA_ne q s.cache ha] at hlk
    exact hc a q2 hlk

/-- Branch equation of `predict`: cache miss. -/
theorem predict_of_lookup_none {cfg : ML.ModelConfig} {now : ℚ}
    {s : ML.PredictorState} {pa pn : String}
    (h : s.cache.lookup pa = none) :
    ML.predict cfg now s pa pn =
      ML.predict.predict_fresh cfg now s pa pn := by
  unfold ML.predict
  rw [h]

/-- Branch equation of `predict`: cache hit whose stored `pool_address`
does not decode as a timestamp — the call raises `ValueError`. -/
theorem predict_of_iso_none {cfg : ML.ModelConfig} {now : ℚ}
    {s : ML.PredictorState} {pa pn : String} {cached : ML.APYPrediction}
    (h : s.cache.lookup pa = some cached)
    (hiso : ML.fromisoformat cached.pool_address = none) :
    ML.predict cfg now s pa pn = none := by
  unfold ML.predict
  simp only [h, hiso]

/-- Branch equation of `predict`: fresh cache hit — the cached prediction
is returned unchanged. -/
theorem predict_of_cache_hit {cfg : ML.ModelConfig} {now : ℚ}
    {s : ML.PredictorState} {pa pn : String} {cached : ML.APYPrediction}
    {t : ℚ} (h : s.cache.lookup pa = some cached)
    (hiso : ML.fromisoformat cached.pool_address = some t)
    (htime : now - t < 300) :
    ML.predict cfg now s pa pn = some (cached, s) := by
  unfold ML.predict
  simp only [h, hiso]
  rw [if_pos htime]

/-- Branch equation of `predict`: expired cache hit — fall through to the
compute path. -/
theorem predict_of_cache_expired {cfg : ML.ModelConfig} {now : ℚ}
    {s : ML.PredictorState} {pa pn : String} {cached : ML.APYPrediction}
    {t : ℚ} (h : s.cache.lookup pa = some cached)
    (hiso : ML.fromisoformat cached.pool_address = some t)
    (htime : ¬ now - t < 300) :
    ML.predict cfg now s pa pn =
      ML.predict.predict_fresh cfg now s pa pn := by
  unfold ML.predict
  simp only [h, hiso]
  rw [if_neg htime]

/-- C7: whatever the stored history, any prediction returned by `predict`
from a cache satisfying the invariant has nonnegative 24h and 7d APY
forecasts and confidence within `[0, 0.95]`, and the updated cache
satisfies the invariant again. -/
theorem c7_predict_bounds (cfg : ML.ModelConfig) (now : ℚ)
    (s : ML.PredictorState) (addr nm : String) (p : ML.APYPrediction)
    (s2 : ML.PredictorState) (hc : cacheBounded s)
    (h : ML.predict cfg now s addr nm = some (p, s2)) :
    (0 ≤ p.predicted_apy_24h ∧ 0 ≤ p.predicted_apy_7d ∧
     0 ≤ p.confidence ∧ p.confidence ≤ 19/20) ∧ cacheBounded s2 := by
  rcases hlk : s.cache.lookup addr with _ | cached
  · rw [predict_of_lookup_none hlk] at h
    exact predict_fresh_bounds hc h
  · rcases hiso : ML.fromisoformat cached.pool_address with _ | t
    · rw [predict_of_iso_none hlk hiso] at h
      exact Option.noConfusion h
    · by_cases htime : now - t < 300
      · rw [predict_of_cache_hit hlk hiso htime] at h
        obtain ⟨rfl, rfl⟩ := Prod.mk.inj (Option.some.inj h)
        exact ⟨hc addr cached hlk, hc⟩
      · rw [predict_of_cache_expired hlk hiso htime] at h
        exact predict_fresh_bounds hc h

/-- A cached prediction whose `pool_address` happens to parse as an ISO
year, letting the cache-hit path of `predict` return it. -/
def isoCachedPrediction : ML.APYPrediction :=
  { pool_name := "Demo", pool_address := "2024", current_apy := 5,
    predicted_apy_24h := 5, predicted_apy_7d := 5, trend := "STABLE",
    confidence := 1/2, recommendation := "HOLD", factors := [],
    risk_warning := "" }

/-- A predictor state caching `isoCachedPrediction` under "2024". -/
def predictorWithIsoCache : ML.PredictorState :=
  { pool_data := [], cache := [("2024", isoCachedPrediction)] }

theorem c7_predict_bounds_witness :
    (0 ≤ isoCachedPrediction.predicted_apy_24h ∧
     0 ≤ isoCachedPrediction.predicted_apy_7d ∧
     0 ≤ isoCachedPrediction.confidence ∧
     isoCachedPrediction.confidence ≤ 19/20) ∧
    cacheBounded predictorWithIsoCache := by
  refine c7_predict_bounds ML.defaultModelConfig 2100 predictorWithIsoCache
    "2024" "Demo" isoCachedPrediction predictorWithIsoCache ?_ ?_
  · intro a q hlk
    by_cases ha : a = "2024"
    · subst ha
      rw [show predictorWithIsoCache.cache =
          [("2024", isoCachedPrediction)] from rfl] at hlk
      simp only [List.lookup_cons, beq_self_eq_true] at hlk
      obtain rfl := (Option.some.inj hlk).symm
      norm_num [isoCachedPrediction]
    · have hb : (a == "2024") = false := beq_eq_false_iff_ne.mpr ha
      rw [show predictorWithIsoCache.cache =
          [("2024", isoCachedPrediction)] from rfl] at hlk
      simp [List.lookup_cons, hb] at hlk
  · refine predict_of_cache_hit rfl
      (show ML.fromisoformat isoCachedPrediction.pool_address =
        some 2024 by
          simp +decide [ML.fromisoformat, isoCachedPrediction])
      (by norm_num)

/-- Every prediction built by the compute path stores the pool address in
its `pool_address` field (the field `predict`'s cache check later feeds to
`datetime.fromisoformat`). -/
theorem predict_compute_pool_address {cfg : ML.ModelConfig} {now : ℚ}
    {s : ML.PredictorState} {addr nm : String} {p : ML.APYPrediction}
    (h : ML.predict_compute cfg now s addr nm = some p) :
    p.pool_address = addr := by
  unfold ML.predict_compute at h
  rcases Option.bind_eq_some.mp h with ⟨f2, _, hb⟩
  unfold ML.build_prediction at hb
  rcases Option.map_eq_some'.mp hb with ⟨rec, _, hmk⟩
  obtain rfl := hmk.symm
  rfl

/-- The compute path of `predict` always succeeds (its divisions are all
guarded), returning the fresh prediction and caching it. -/
theorem predict_fresh_isSome (cfg : ML.ModelConfig) (now : ℚ)
    (s : ML.PredictorState) (addr nm : String) :
    (ML.predict.predict_fresh cfg now s addr nm).isSome = true := by
  unfold ML.predict.predict_fresh
  rw [Option.isSome_map']
  unfold ML.predict_compute
  refine bind_isSome_of (extract_features_isSome cfg now s addr)
    (fun f => ?_)
  unfold ML.build_prediction
  rw [Option.isSome_map']
  exact generate_recommendation_isSome _ _ _ _ _ _

/-- C3: the 5-minute prediction cache is unusable — a first `predict` call
succeeds and caches its result, but a second call within 5 minutes hits
the cache, runs `datetime.fromisoformat` on the cached prediction's
`pool_address` (which holds the pool address "0xPOOL", not a timestamp)
and raises `ValueError` (`none`) instead of returning the cached
prediction. -/
theorem c3_cache_hit_raises_valueerror :
    (ML.predict ML.defaultModelConfig 0 ML.initPredictor "0xPOOL"
        "Demo").isSome = true ∧
    ((ML.predict ML.defaultModelConfig 0 ML.initPredictor "0xPOOL"
        "Demo").bind (fun r =>
      ML.predict ML.defaultModelConfig 60 r.2 "0xPOOL" "Demo")) = none := by
  have hmiss : ML.initPredictor.cache.lookup "0xPOOL" = none := rfl
  have h1 : ML.predict ML.defaultModelConfig 0 ML.initPredictor "0xPOOL"
      "Demo" = ML.predict.predict_fresh ML.defaultModelConfig 0
      ML.initPredictor "0xPOOL" "Demo" := predict_of_lookup_none hmiss
  constructor
  · rw [h1]
    exact predict_fresh_isSome _ _ _ _ _
  · rcases hp : ML.predict ML.defaultModelConfig 0 ML.initPredictor
        "0xPOOL" "Demo" with _ | r
    · have hs := predict_fresh_isSome ML.defaultModelConfig 0
        ML.initPredictor "0xPOOL" "Demo"
      rw [← h1, hp] at hs
      exact absurd hs (by simp)
    · obtain ⟨p, s2⟩ := r
      rw [h1] at hp
      unfold ML.predict.predict_fresh at hp
      rcases Option.map_eq_some'.mp hp with ⟨q, hq, hpair⟩
      obtain ⟨rfl, rfl⟩ := Prod.mk.inj hpair
      have haddr : q.pool_address = "0xPOOL" :=
        predict_compute_pool_address hq
      have hlk2 : ({ ML.initPredictor with
          cache := setA "0xPOOL" q ML.initPredictor.cache } :
          ML.PredictorState).cache.lookup "0xPOOL" = some q :=
        lookup_setA_self "0xPOOL" q ML.initPredictor.cache
      have hiso2 : ML.fromisoformat q.pool_address = none := by
        rw [haddr]
        rfl
      rw [Option.some_bind]
      exact predict_of_iso_none hlk2 hiso2
